import Mathlib

/-!
Verification development for the SCRI trial-agent orchestration core.

The development shallowly embeds the TypeScript agent (`TrialAgent` in the
services module, the ClinicalTrials.gov client, and `SCRIApiClient.toTrialSummary`)
into Lean:

* JavaScript strings are embedded as `List Char`; `toUpperCase` is the
  character-wise uppercase map (the ASCII fragment relevant here),
  `includes` is infix containment, `trim` drops whitespace at both ends.
* The `Map` used for the trial cache is embedded as an association list in
  insertion order; `Map.set` overwrites in place, `Map.get` finds the entry
  with the requested key, iteration is list order.
* Network endpoints (the SCRI search API, the ClinicalTrials.gov registry,
  the model endpoint) are oracles passed as function parameters, so theorems
  quantify over every possible endpoint behaviour.
* The ZIP-coordinate table and the haversine distance are leaf oracles
  (`getZip`, `dist`) passed as parameters; a site latitude/longitude is
  `Option ℚ`, `none` standing for an empty or unparsable coordinate string
  (the code guards with truthiness plus `parseFloat`/`isNaN`).
* JavaScript's `Array.prototype.sort` (stable since ES2019) is embedded as
  the stable `List.insertionSort` over the exact comparator key used by the
  code, including the `||`-fallback that treats a distance of `0` as falsy.
* Fallible code returns `Option`/`Except`; thrown exceptions at oracle
  boundaries are explicit outcome constructors.
-/

/-! ## JavaScript string primitives -/

/-- A JavaScript string, embedded as its list of characters. -/
abbrev Str := List Char

/-- Embedding of `String.prototype.toUpperCase` (character-wise, ASCII fragment). -/
def jsToUpper (s : Str) : Str := s.map Char.toUpper

/-- Embedding of `String.prototype.isPrefix` test used below: `p` is a prefix of `s`. -/
def isPrefixB : Str → Str → Bool
  | [], _ => true
  | _ :: _, [] => false
  | a :: as, b :: bs => a == b && isPrefixB as bs

/-- Embedding of `s.includes(q)`: `q` occurs contiguously inside `s`. -/
def jsIncludes : Str → Str → Bool
  | s, q =>
    isPrefixB q s ||
      match s with
      | [] => false
      | _ :: rest => jsIncludes rest q

/-- Embedding of `String.prototype.trim`: drop whitespace at both ends. -/
def jsTrim (s : Str) : Str :=
  ((s.dropWhile Char.isWhitespace).reverse.dropWhile Char.isWhitespace).reverse

/-- Embedding of `s.startsWith(p)`. -/
def jsStartsWith (p s : Str) : Bool := isPrefixB p s

/-! ## Trial data model (types module) -/

/-- Coordinates produced by the ZIP lookup table. -/
structure Coords where
  lat : ℚ
  lon : ℚ
deriving DecidableEq

/-- An SCRI site or office (`SCRISite`/`SCRIOffice`).  `latitude`/`longitude` are
`Option ℚ`: `none` models an empty or unparsable coordinate string, which the
code filters out with truthiness checks plus `parseFloat`/`isNaN`. -/
structure SCRILocation where
  displayName : Str
  siteName1 : Str
  city : Str
  state : Str
  phoneNumber1 : Str
  latitude : Option ℚ
  longitude : Option ℚ
deriving DecidableEq

/-- An SCRI trial record (`SCRITrial`), restricted to the fields the agent reads. -/
structure SCRITrial where
  studyId : Str
  studyName : Str
  protocolTitle : Str
  nct : Str
  phaseNames : List Str
  programTypeNames : List Str
  siteList : List SCRILocation
  officeList : List SCRILocation
deriving DecidableEq

/-- A cache entry: the trial plus the ZIP code supplied at fetch time
(`{ trial, userZipCode }` in `TrialAgent.trialCache`). -/
structure CacheEntry where
  trial : SCRITrial
  userZipCode : Option Str
deriving DecidableEq

/-- The trial cache: a JavaScript `Map` embedded as an association list in
insertion order. -/
abbrev TrialMap := List (Str × CacheEntry)

/-- Embedding of `Map.set`: overwrite in place if the key exists, else append. -/
def mapSet : TrialMap → Str → CacheEntry → TrialMap
  | [], k, v => [(k, v)]
  | (k0, v0) :: rest, k, v =>
    if k0 = k then (k, v) :: rest else (k0, v0) :: mapSet rest k v

/-- Embedding of `Map.get`. -/
def mapGet (m : TrialMap) (k : Str) : Option CacheEntry :=
  (m.find? (fun p => decide (p.1 = k))).map Prod.snd

/-- The alias keys one trial is stored under: its id, and its uppercased name
when the name is truthy (non-empty). -/
def keysOf (t : SCRITrial) : List Str :=
  t.studyId :: (if t.studyName = [] then [] else [jsToUpper t.studyName])

/-- One iteration of `TrialAgent.cacheTrials`: store under `studyId`, and under
the uppercased `studyName` when the name is truthy. -/
def insertTrial (zip : Option Str) (m : TrialMap) (t : SCRITrial) : TrialMap :=
  let m1 := mapSet m t.studyId ⟨t, zip⟩
  if t.studyName = [] then m1 else mapSet m1 (jsToUpper t.studyName) ⟨t, zip⟩

/-- Embedding of `TrialAgent.cacheTrials(trials, userZipCode)` acting on cache `m`. -/
def cacheTrials (m : TrialMap) (trials : List SCRITrial) (zip : Option Str) : TrialMap :=
  trials.foldl (insertTrial zip) m

/-- Embedding of `TrialAgent.getCachedTrial`: exact match, then uppercased
match, then a linear scan for substring containment in either direction. -/
def getCachedTrial (m : TrialMap) (studyId : Str) : Option CacheEntry :=
  match mapGet m studyId with
  | some e => some e
  | none =>
    match mapGet m (jsToUpper studyId) with
    | some e => some e
    | none =>
      (m.find? (fun p =>
        jsIncludes p.1 (jsToUpper studyId) || jsIncludes (jsToUpper studyId) p.1)).map Prod.snd

/-- Pairwise disjointness of the alias keys of distinct trials in a batch
(decidable side condition for the amended cache-aliasing statements). -/
def clashFree : List SCRITrial → Bool
  | [] => true
  | t :: rest =>
    ((keysOf t).all (fun k => rest.all (fun u => decide (k ∉ keysOf u)))) && clashFree rest

/-- The keys of a cache, in insertion order. -/
def mapKeys (m : TrialMap) : List Str := m.map Prod.fst

/-! ## Slim search projection (executeTool case `search_trials`) -/

/-- The slim projection (`TrialSearchResult`) returned by the search tool. -/
structure TrialSearchResult where
  id : Str
  name : Str
  nctId : Str
  phases : List Str
  closestCity : Option Str
  closestState : Option Str
  distance : Option ℚ
deriving DecidableEq

/-- The location list the code operates on: offices when present, else sites. -/
def selectedLocations (t : SCRITrial) : List SCRILocation :=
  if t.officeList ≠ [] then t.officeList else t.siteList

/-- The per-trial slim projection built inside the `search_trials` branch:
track the minimum-distance location over the selected list (starting from
`Infinity`, here the `none` accumulator), falling back to the first location's
city/state when no user coordinates are available. -/
def slimOfTrial (dist : Coords → Coords → ℚ) (userCoords : Option Coords)
    (t : SCRITrial) : TrialSearchResult :=
  let locations := selectedLocations t
  let base : TrialSearchResult :=
    ⟨t.studyId, t.studyName, t.nct, t.phaseNames, none, none, none⟩
  match userCoords, locations with
  | some uc, _ :: _ =>
    let best := locations.foldl (fun (acc : Option (ℚ × Str × Str)) loc =>
      match loc.latitude, loc.longitude with
      | some la, some lo =>
        let d := dist uc ⟨la, lo⟩
        match acc with
        | none => some (d, jsTrim loc.city, loc.state)
        | some (m, c0, s0) =>
          if d < m then some (d, jsTrim loc.city, loc.state) else some (m, c0, s0)
      | _, _ => acc) none
    match best with
    | some (d, c, s) =>
      ⟨t.studyId, t.studyName, t.nct, t.phaseNames, some c, some s, some d⟩
    | none => base
  | none, loc0 :: _ =>
    ⟨t.studyId, t.studyName, t.nct, t.phaseNames,
      some (jsTrim loc0.city), some loc0.state, none⟩
  | _, [] => base

/-- The numeric sort key of the comparator `(a.distance || 999) - (b.distance || 999)`:
a distance of `0` is falsy in JavaScript and therefore keyed as `999`. -/
def sortKey (t : TrialSearchResult) : ℚ :=
  match t.distance with
  | some d => if d = 0 then 999 else d
  | none => 999

/-- The comparator relation of the `search_trials` sort. -/
def slimLe (a b : TrialSearchResult) : Prop := sortKey a ≤ sortKey b

instance : DecidableRel slimLe :=
  fun a b => inferInstanceAs (Decidable (sortKey a ≤ sortKey b))

/-- The slim result list of `search_trials`: with a ZIP code, sort the
distance-bearing entries by the comparator, cap at 20, then pad with
distance-less entries up to 20; without a ZIP code, take the first 20. -/
def searchTrialsSlim (dist : Coords → Coords → ℚ) (getZip : Str → Option Coords)
    (zipCode : Option Str) (trials : List SCRITrial) : List TrialSearchResult :=
  let userCoords := match zipCode with | some z => getZip z | none => none
  let slim := trials.map (slimOfTrial dist userCoords)
  match zipCode with
  | some _ =>
    let sortedResults :=
      (List.insertionSort slimLe (slim.filter (fun t => t.distance.isSome))).take 20
    if sortedResults.length < 20 then
      sortedResults ++ (slim.filter (fun t => t.distance.isNone)).take (20 - sortedResults.length)
    else sortedResults
  | none => slim.take 20

/-- The patient profile attributes read by the agent. -/
structure PatientProfile where
  cancerType : Option Str
  zipCode : Option Str
  age : Option Nat
  stage : Option Str
  travelRadius : Option Nat
  previousTreatments : List Str
deriving DecidableEq

/-- The mutable agent state visible to the tool executor. -/
structure AgentToolState where
  trialCache : TrialMap
  patientProfile : Option PatientProfile
deriving DecidableEq

/-- Payload of the `search_trials` tool (the `message` string, which only
interpolates the counts below, is omitted). -/
structure SearchToolResult where
  totalFound : Nat
  showing : Nat
  trials : List TrialSearchResult
deriving DecidableEq

/-- Embedding of the `search_trials` branch of `TrialAgent.executeTool`:
`searchData`/`totalItemCount` are the upstream response of
`scriApi.searchTrials(cancerType, 1)`.  The records are cached under the
ZIP code of the tool arguments (the patient profile is in scope on the class
but not consulted by this branch). -/
def executeSearchTrials (dist : Coords → Coords → ℚ) (getZip : Str → Option Coords)
    (st : AgentToolState) (searchData : List SCRITrial) (totalItemCount : Nat)
    (cancerType : Str) (zipCode : Option Str) : AgentToolState × SearchToolResult :=
  let newCache := cacheTrials st.trialCache searchData zipCode
  let trials := searchTrialsSlim dist getZip zipCode searchData
  (⟨newCache, st.patientProfile⟩, ⟨totalItemCount, trials.length, trials⟩)

/-! ## Full summary projection (`SCRIApiClient.toTrialSummary`) -/

/-- A location summary row of `TrialSummary.allLocations`. -/
structure LocationSummary where
  name : Str
  city : Str
  state : Str
  phone : Option Str
  distance : Option ℚ
deriving DecidableEq

/-- The sort key of the comparator `(a.distance || Infinity) - (b.distance || Infinity)`
in `toTrialSummary`; `none` is `Infinity`, and a distance of `0` is falsy and
therefore also keyed as `Infinity`. -/
def locKey (l : LocationSummary) : Option ℚ :=
  match l.distance with
  | some d => if d = 0 then none else some d
  | none => none

/-- Order on `Option ℚ` with `none` as positive infinity. -/
def optInfLe : Option ℚ → Option ℚ → Prop
  | none, none => True
  | some _, none => True
  | none, some _ => False
  | some a, some b => a ≤ b

instance : ∀ a b : Option ℚ, Decidable (optInfLe a b)
  | none, none => isTrue trivial
  | some _, none => isTrue trivial
  | none, some _ => isFalse (fun h => h)
  | some x, some y => inferInstanceAs (Decidable (x ≤ y))

/-- The comparator relation of the `toTrialSummary` location sort. -/
def locLe (a b : LocationSummary) : Prop := optInfLe (locKey a) (locKey b)

instance : DecidableRel locLe :=
  fun a b => inferInstanceAs (Decidable (optInfLe (locKey a) (locKey b)))

/-- The full trial summary (`TrialSummary`). -/
structure TrialSummary where
  id : Str
  name : Str
  title : Str
  nctId : Str
  phases : List Str
  cancerTypes : List Str
  locationCount : Nat
  closestLocation : Option LocationSummary
  allLocations : List LocationSummary
deriving DecidableEq

/-- One row of `locationsWithDistance` in `toTrialSummary`. -/
def locWithDistance (dist : Coords → Coords → ℚ) (userCoords : Option Coords)
    (loc : SCRILocation) : LocationSummary :=
  let d : Option ℚ :=
    match userCoords, loc.latitude, loc.longitude with
    | some uc, some la, some lo => some (dist uc ⟨la, lo⟩)
    | _, _, _ => none
  ⟨(if loc.displayName ≠ [] then loc.displayName else loc.siteName1),
    jsTrim loc.city, loc.state,
    (if loc.phoneNumber1 ≠ [] then some loc.phoneNumber1 else none), d⟩

/-- The user coordinates resolved from an optional ZIP code. -/
def userCoordsOf (getZip : Str → Option Coords) (zip : Option Str) : Option Coords :=
  match zip with
  | some z => getZip z
  | none => none

/-- The `locationsWithDistance` list of `toTrialSummary`. -/
def summaryLocs (dist : Coords → Coords → ℚ) (getZip : Str → Option Coords)
    (t : SCRITrial) (zip : Option Str) : List LocationSummary :=
  (selectedLocations t).map (locWithDistance dist (userCoordsOf getZip zip))

/-- The `sortedLocations` list of `toTrialSummary`: the distance-bearing rows,
sorted by the comparator. -/
def summarySorted (dist : Coords → Coords → ℚ) (getZip : Str → Option Coords)
    (t : SCRITrial) (zip : Option Str) : List LocationSummary :=
  List.insertionSort locLe ((summaryLocs dist getZip t zip).filter (fun l => l.distance.isSome))

/-- Embedding of `SCRIApiClient.toTrialSummary(trial, userZipCode)`.  The
portal/registry links are plain functions of `studyId`/`nct` and are omitted
from the summary record. -/
def toTrialSummary (dist : Coords → Coords → ℚ) (getZip : Str → Option Coords)
    (t : SCRITrial) (userZipCode : Option Str) : TrialSummary :=
  ⟨t.studyId, t.studyName, t.protocolTitle, t.nct, t.phaseNames, t.programTypeNames,
    (selectedLocations t).length,
    (match summarySorted dist getZip t userZipCode with
      | x :: _ => some x
      | [] => (summaryLocs dist getZip t userZipCode).head?),
    (if summarySorted dist getZip t userZipCode ≠ [] then summarySorted dist getZip t userZipCode
      else summaryLocs dist getZip t userZipCode)⟩

/-! ## Detail lookup (executeTool case `get_study_details`) -/

/-- Where a found detail record came from. -/
inductive DetailSource where
  | cache
  | api
deriving DecidableEq

/-- Result of the `get_study_details` branch. -/
inductive DetailResult where
  | found (source : DetailSource) (trial : TrialSummary)
  | notFound (studyId : Str)
deriving DecidableEq

/-- Embedding of the `get_study_details` branch of `TrialAgent.executeTool`:
consult the cache first; on a miss call the SCRI detail endpoint (the oracle
`api`, `none` modelling a thrown fetch); a failure of both yields the
`{ found: false, error }` payload. -/
def executeGetStudyDetails (dist : Coords → Coords → ℚ) (getZip : Str → Option Coords)
    (m : TrialMap) (api : Str → Option SCRITrial) (studyId : Str) : DetailResult :=
  match getCachedTrial m studyId with
  | some e => DetailResult.found DetailSource.cache (toTrialSummary dist getZip e.trial e.userZipCode)
  | none =>
    match api studyId with
    | some t => DetailResult.found DetailSource.api (toTrialSummary dist getZip t none)
    | none => DetailResult.notFound studyId

/-! ## ClinicalTrials.gov client -/

/-- Outcome of one `fetch` against an upstream endpoint: a parsed 2xx body,
a non-2xx status, or a thrown exception (network error or JSON parse error). -/
inductive FetchOutcome (α : Type) where
  | ok (value : α)
  | httpError (status : Nat)
  | thrown
deriving DecidableEq

/-- A ClinicalTrials.gov study, restricted to the fields the tools read. -/
structure CTGovStudy where
  nctId : Str
  briefTitle : Str
  eligibilityCriteria : Option Str
deriving DecidableEq

/-- The literal characters of the required id prefix. -/
def nctPrefix : Str := ['N', 'C', 'T']

/-- Embedding of `fetchCTGovStudy`: uppercase and trim the id, short-circuit to
`null` before any network call unless it starts with `NCT`, then fetch; any
non-2xx status, missing `protocolSection` (`FetchOutcome.ok none`) or thrown
error yields `null`.  The second component counts upstream requests issued. -/
def fetchCTGovStudy (registry : Str → FetchOutcome (Option CTGovStudy))
    (nctId : Str) : Option CTGovStudy × Nat :=
  let clean := jsTrim (jsToUpper nctId)
  if jsStartsWith nctPrefix clean = true then
    match registry clean with
    | FetchOutcome.ok (some study) => (some study, 1)
    | FetchOutcome.ok none => (none, 1)
    | FetchOutcome.httpError _ => (none, 1)
    | FetchOutcome.thrown => (none, 1)
  else (none, 0)

/-- Result of the `get_trial_eligibility` branch: either the `{error: ...}`
payload naming the id, or the success payload (title shown; the formatted
criteria text is presentation and omitted). -/
inductive EligibilityOutcome where
  | errorPayload (nctId : Str)
  | success (nctId : Str) (title : Str)
deriving DecidableEq

/-- Embedding of the `get_trial_eligibility` branch of `TrialAgent.executeTool`. -/
def executeGetTrialEligibility (registry : Str → FetchOutcome (Option CTGovStudy))
    (nctId : Str) : EligibilityOutcome :=
  match (fetchCTGovStudy registry nctId).1 with
  | none => EligibilityOutcome.errorPayload nctId
  | some study => EligibilityOutcome.success nctId study.briefTitle

/-- A projected record of the ClinicalTrials.gov backstop search (the raw
JSON-to-record projection is applied by the oracle). -/
structure CTGovSearchResult where
  nctId : Str
  briefTitle : Str
deriving DecidableEq

/-- The geo filter actually sent: the trimmed location when non-empty. -/
def trimmedLocationOf (location : Option Str) : Option Str :=
  match location with
  | none => none
  | some l => if jsTrim l ≠ [] then some (jsTrim l) else none

/-- Embedding of `searchCTGov`: fetch with the geo filter when a non-empty
location is supplied; on a 400 with a geo filter, the code re-enters itself
with `location = undefined` - that recursive call is unrolled here at that
argument (it fetches once without the filter and cannot retry again); any
other failure returns the empty list.  The second component counts upstream
requests issued. -/
def searchCTGov (fetch : Option Str → FetchOutcome (List CTGovSearchResult))
    (location : Option Str) : List CTGovSearchResult × Nat :=
  match fetch (trimmedLocationOf location) with
  | FetchOutcome.ok studies => (studies, 1)
  | FetchOutcome.httpError status =>
    if status = 400 ∧ (trimmedLocationOf location).isSome = true then
      match fetch none with
      | FetchOutcome.ok studies => (studies, 2)
      | FetchOutcome.httpError _ => ([], 2)
      | FetchOutcome.thrown => ([], 2)
    else ([], 1)
  | FetchOutcome.thrown => ([], 1)

/-! ## Conversation orchestrator (`TrialAgent.chat`) -/

/-- A model-issued function call request. -/
structure FunctionCall where
  name : String
  arguments : String
  call_id : String
deriving DecidableEq

/-- A content item of a model message: an `output_text` segment or anything else. -/
inductive ContentItem where
  | outputText (text : String)
  | other
deriving DecidableEq

/-- An output item of a model response. -/
inductive OutputItem where
  | functionCall (fc : FunctionCall)
  | message (content : List ContentItem)
  | other
deriving DecidableEq

/-- A model response (`openai.responses.create` result): id, status, and the
output list (`none` when the response carries no output array). -/
structure Response where
  id : String
  status : String
  output : Option (List OutputItem)
deriving DecidableEq

/-- The status string the loop condition compares against. -/
def statusCompleted : String := "completed"

/-- A tool output submitted back to the model: either the stringified result
or the stringified `{error: String(error)}` payload built in the catch block. -/
inductive ToolOutput where
  | success (payload : String)
  | errorPayload (message : String)
deriving DecidableEq

/-- One `{type: function_call_output, call_id, output}` item. -/
structure ToolOutputPair where
  call_id : String
  output : ToolOutput
deriving DecidableEq

/-- Processing of one function call inside the loop: parse the JSON argument
string, execute the tool, and convert any thrown error into an error payload;
`parse` and `exec` are oracles for `JSON.parse` and `executeTool`
(`Except.error` standing for a thrown exception). -/
def processCall (parse : String → Except String String)
    (exec : String → String → Except String String) (c : FunctionCall) : ToolOutputPair :=
  match parse c.arguments with
  | Except.error e => ⟨c.call_id, ToolOutput.errorPayload e⟩
  | Except.ok args =>
    match exec c.name args with
    | Except.error e => ⟨c.call_id, ToolOutput.errorPayload e⟩
    | Except.ok out => ⟨c.call_id, ToolOutput.success out⟩

/-- The function calls contained in a response's output. -/
def getFunctionCalls (r : Response) : List FunctionCall :=
  match r.output with
  | none => []
  | some items => items.filterMap (fun item =>
      match item with
      | OutputItem.functionCall fc => some fc
      | _ => none)

/-- The newline used to join text segments. -/
def newlineStr : String := "\n"

/-- The fixed fallback apology string of `chat`. -/
def fallbackApology : String := "I apologize, but I was unable to generate a response."

/-- The newline-joined `output_text` segments of the first message item of a
response (the empty string when there is no message item). -/
def joinedTexts (r : Response) : String :=
  match (match r.output with
    | none => none
    | some items => items.findSome? (fun item =>
        match item with
        | OutputItem.message content => some content
        | _ => none)) with
  | none => ""
  | some content =>
    String.intercalate newlineStr (content.filterMap (fun c =>
      match c with
      | ContentItem.outputText t => some t
      | ContentItem.other => none))

/-- The text `chat` returns: the joined segments, or the fallback apology when
they are falsy (empty). -/
def extractText (r : Response) : String :=
  if joinedTexts r = "" then fallbackApology else joinedTexts r

/-- The safety limit `maxLoops` of the tool loop. -/
def maxLoops : Nat := 10

/-- Observable trace of one turn: the final response, the ids of the responses
whose tool outputs were fed back (the intermediate tool turns), and each
iteration's function calls next to the `{call_id, output}` batch built for
them. -/
structure TurnTrace where
  finalResponse : Response
  midTurnIds : List String
  batches : List (List FunctionCall × List ToolOutputPair)
deriving DecidableEq

/-- The tool loop of `TrialAgent.chat`: while the response is completed, has
an output array and the iteration bound is not reached, collect the function
calls; none means the final answer is reached; otherwise build one output pair
per call and chain a new model call.  The model endpoint is an oracle indexed
by the count of calls already made, covering every endpoint behaviour. -/
def runToolLoop (endpoint : Nat → Response) (parse : String → Except String String)
    (exec : String → String → Except String String) :
    Nat → Response → Nat → TurnTrace
  | 0, r, _ => ⟨r, [], []⟩
  | fuel + 1, r, k =>
    if r.status = statusCompleted ∧ r.output.isSome = true then
      match getFunctionCalls r with
      | [] => ⟨r, [], []⟩
      | c :: cs =>
        ⟨(runToolLoop endpoint parse exec fuel (endpoint k) (k + 1)).finalResponse,
          r.id :: (runToolLoop endpoint parse exec fuel (endpoint k) (k + 1)).midTurnIds,
          (c :: cs, (c :: cs).map (processCall parse exec)) ::
            (runToolLoop endpoint parse exec fuel (endpoint k) (k + 1)).batches⟩
    else ⟨r, [], []⟩

/-- Outcome of one `chat` turn: the stored continuation token
(`previousResponseId` after the turn), the returned text, and the turn trace. -/
structure ChatOutcome where
  newPreviousResponseId : Option String
  text : String
  trace : TurnTrace
deriving DecidableEq

/-- Embedding of `TrialAgent.chat`: issue the initial model call, run the tool
loop with fuel `maxLoops`, store the final response id as the continuation
token, and extract the text (or the fallback apology).  `prevId` is the token
before the call; the request construction it feeds into is part of the
endpoint oracle. -/
def chat (endpoint : Nat → Response) (parse : String → Except String String)
    (exec : String → String → Except String String) (prevId : Option String) : ChatOutcome :=
  let tr := runToolLoop endpoint parse exec maxLoops (endpoint 0) 1
  ⟨some tr.finalResponse.id, extractText tr.finalResponse, tr⟩

/-! ## Concrete fixtures for counterexamples and witnesses -/

/-- Fresh response id for index `i` (distinct lengths give distinct ids). -/
def wIdOf (i : Nat) : String := String.mk (List.replicate i 'a')

/-- Endpoint always answering a completed response without function calls. -/
def wEndpointA : Nat → Response := fun i => ⟨wIdOf i, statusCompleted, some []⟩

/-- Argument parser oracle that always succeeds. -/
def wParseOk : String → Except String String := fun s => Except.ok s

/-- Tool executor oracle that always succeeds. -/
def wExecOk : String → String → Except String String := fun _ a => Except.ok a

/-- Argument parser oracle that always throws. -/
def wParseErr : String → Except String String := fun s => Except.error s

/-- Name of the tool requested in the C2 scenario. -/
def toolNameStr : String := "search_trials"

/-- Malformed argument payload of the C2 scenario. -/
def badArgsStr : String := "not json"

/-- Call id of the C2 scenario. -/
def callIdStr : String := "call_1"

/-- The function call of the C2 scenario. -/
def wCall0 : FunctionCall := ⟨toolNameStr, badArgsStr, callIdStr⟩

/-- Final message text of the C2 scenario. -/
def helloStr : String := "Here are your results."

/-- Endpoint whose first response requests one tool call and whose later
responses answer with a message. -/
def wEndpointB : Nat → Response := fun i =>
  if i = 0 then ⟨wIdOf 0, statusCompleted, some [OutputItem.functionCall wCall0]⟩
  else ⟨wIdOf i, statusCompleted, some [OutputItem.message [ContentItem.outputText helloStr]]⟩

/-- The one-call batch of the C2 scenario. -/
def wFcsB : List FunctionCall := [wCall0]

/-- The tool outputs built for it (the parse error became an error payload). -/
def wBatchB : List ToolOutputPair := [⟨callIdStr, ToolOutput.errorPayload badArgsStr⟩]

/-- The ZIP string of the concrete search scenarios. -/
def exZip37203 : Str := ['3', '7', '2', '0', '3']

/-- Distance oracle of the C3 scenario: the distance to a site is the site's
latitude (so the two sites below are 0 and 5 miles away; the code's haversine
rounds to whole miles, so a site within half a mile yields exactly 0). -/
def exDist : Coords → Coords → ℚ := fun _ c => c.lat

/-- ZIP oracle of the concrete scenarios: every ZIP resolves. -/
def exGetZip : Str → Option Coords := fun _ => some ⟨0, 0⟩

/-- A site 0 miles from the origin under `exDist`. -/
def exSite0 : SCRILocation := ⟨['S'], [], ['N'], ['T', 'N'], [], some 0, some 0⟩

/-- A site 5 miles from the origin under `exDist`. -/
def exSite5 : SCRILocation := ⟨['S'], [], ['N'], ['T', 'N'], [], some 5, some 0⟩

/-- Trial whose only site is 0 miles away. -/
def exTrial0 : SCRITrial := ⟨['T', '0'], ['Z', 'E', 'R', 'O'], [], [], [], [], [], [exSite0]⟩

/-- Trial whose only site is 5 miles away. -/
def exTrial5 : SCRITrial := ⟨['T', '5'], ['F', 'I', 'V', 'E'], [], [], [], [], [], [exSite5]⟩

/-- Cancer-type argument of the concrete search scenarios. -/
def exCancer : Str := ['B', 'r', 'e', 'a', 's', 't']

/-- Trial with id AAA and display name BCD. -/
def exT1 : SCRITrial := ⟨['A', 'A', 'A'], ['B', 'C', 'D'], [], [], [], [], [], []⟩

/-- Trial whose id BCD collides with the name alias of `exT1`. -/
def exT2 : SCRITrial := ⟨['B', 'C', 'D'], ['X', 'Y', 'Z'], [], [], [], [], [], []⟩

/-- Cache after a search returned `exT1` then `exT2`. -/
def exCache : TrialMap := cacheTrials [] [exT1, exT2] none

/-- Trial with id AAA and name ABC (no alias clashes with `wT2`). -/
def wT1 : SCRITrial := ⟨['A', 'A', 'A'], ['A', 'B', 'C'], [], [], [], [], [], []⟩

/-- Trial with id QQQ and name XYZ. -/
def wT2 : SCRITrial := ⟨['Q', 'Q', 'Q'], ['X', 'Y', 'Z'], [], [], [], [], [], []⟩

/-- A clash-free search batch. -/
def wTrials : List SCRITrial := [wT1, wT2]

/-- Cache after a search returned `wTrials`. -/
def wCache4 : TrialMap := cacheTrials [] wTrials none

/-- The substring query of the C4 scenarios: BC. -/
def sBC : Str := ['B', 'C']

/-- The scan hit for query BC in `wCache4`. -/
def wPair4 : Str × CacheEntry := (['A', 'B', 'C'], ⟨wT1, none⟩)

/-- A patient profile carrying a ZIP code. -/
def exProfile : PatientProfile := ⟨none, some exZip37203, none, none, none, []⟩

/-- Agent state with an empty cache and that profile. -/
def exStateP : AgentToolState := ⟨[], some exProfile⟩

/-- Registry oracle that reports every study as not found. -/
def wRegistry404 : Str → FetchOutcome (Option CTGovStudy) := fun _ => FetchOutcome.httpError 404

/-- A malformed registry id (no NCT prefix after normalizing). -/
def sLowerId : Str := ['a', 'b', 'c']

/-- The not-found registry id of the eligibility scenario. -/
def sNCT0 : Str := ['N', 'C', 'T', '0', '0', '0', '0', '0', '0', '0', '0']

/-- Backstop fetch oracle: rejects any geo filter with a 400, succeeds without. -/
def wFetchGeo400 : Option Str → FetchOutcome (List CTGovSearchResult) := fun o =>
  match o with
  | some _ => FetchOutcome.httpError 400
  | none => FetchOutcome.ok []

/-- The location argument of the backstop scenario. -/
def wLocNash : Str := ['N', 'a', 's', 'h']

/-- Distance oracle for cache-lookup witnesses. -/
def wDist : Coords → Coords → ℚ := fun _ _ => 0

/-- ZIP oracle for cache-lookup witnesses: nothing resolves. -/
def wGetZip : Str → Option Coords := fun _ => none

/-- Detail-endpoint oracle that always throws. -/
def wApiNone : Str → Option SCRITrial := fun _ => none

/-- A trial with no offices and no sites. -/
def wEmptyTrial : SCRITrial := ⟨['E'], [], [], [], [], [], [], []⟩


/-! ## Map lemmas -/

/-- Looking up the key at the head of the cache. -/
theorem mapGet_cons_self (k : Str) (v : CacheEntry) (rest : TrialMap) :
    mapGet ((k, v) :: rest) k = some v := by
  unfold mapGet
  rw [List.find?_cons_of_pos rest (by simp)]
  rfl

/-- Looking up a key different from the head of the cache. -/
theorem mapGet_cons_ne (k0 k : Str) (v0 : CacheEntry) (rest : TrialMap) (h : k0 ≠ k) :
    mapGet ((k0, v0) :: rest) k = mapGet rest k := by
  unfold mapGet
  rw [List.find?_cons_of_neg rest (by simp [h])]

/-- Reading back the key just set. -/
theorem mapGet_mapSet_self (m : TrialMap) (k : Str) (v : CacheEntry) :
    mapGet (mapSet m k v) k = some v := by
  induction m with
  | nil => exact mapGet_cons_self k v []
  | cons p rest ih =>
    obtain ⟨k0, v0⟩ := p
    by_cases h : k0 = k
    · rw [show mapSet ((k0, v0) :: rest) k v = (k, v) :: rest from by simp [mapSet, h]]
      exact mapGet_cons_self k v rest
    · rw [show mapSet ((k0, v0) :: rest) k v = (k0, v0) :: mapSet rest k v from by
        simp [mapSet, h]]
      rw [mapGet_cons_ne k0 k v0 _ h]
      exact ih

/-- Setting one key leaves every other key unchanged. -/
theorem mapGet_mapSet_ne (m : TrialMap) (k k' : Str) (v : CacheEntry) (h : k' ≠ k) :
    mapGet (mapSet m k v) k' = mapGet m k' := by
  induction m with
  | nil =>
    rw [show mapSet [] k v = [(k, v)] from rfl, mapGet_cons_ne k k' v [] (fun hh => h hh.symm)]
  | cons p rest ih =>
    obtain ⟨k0, v0⟩ := p
    by_cases h0 : k0 = k
    · subst h0
      rw [show mapSet ((k0, v0) :: rest) k0 v = (k0, v) :: rest from by simp [mapSet]]
      rw [mapGet_cons_ne k0 k' v _ (fun hh => h hh.symm),
        mapGet_cons_ne k0 k' v0 _ (fun hh => h hh.symm)]
    · rw [show mapSet ((k0, v0) :: rest) k v = (k0, v0) :: mapSet rest k v from by
        simp [mapSet, h0]]
      by_cases h1 : k0 = k'
      · subst h1
        rw [mapGet_cons_self, mapGet_cons_self]
      · rw [mapGet_cons_ne k0 k' v0 _ h1, mapGet_cons_ne k0 k' v0 _ h1]
        exact ih

/-- Inserting a trial makes every one of its alias keys map to its entry. -/
theorem mapGet_insertTrial_mem (zip : Option Str) (m : TrialMap) (t : SCRITrial)
    (k : Str) (hk : k ∈ keysOf t) :
    mapGet (insertTrial zip m t) k = some ⟨t, zip⟩ := by
  unfold insertTrial
  unfold keysOf at hk
  by_cases hn : t.studyName = []
  · rw [if_pos hn]
    rw [hn] at hk
    simp only [if_pos rfl] at hk
    have hid : k = t.studyId := by simpa using hk
    subst hid
    exact mapGet_mapSet_self m _ ⟨t, zip⟩
  · rw [if_neg hn]
    rw [if_neg hn] at hk
    by_cases hku : k = jsToUpper t.studyName
    · subst hku
      exact mapGet_mapSet_self _ _ ⟨t, zip⟩
    · have hid : k = t.studyId := by
        rcases List.mem_cons.mp hk with h | h
        · exact h
        · exact absurd (List.mem_singleton.mp h) hku
      subst hid
      rw [mapGet_mapSet_ne _ _ _ _ hku]
      exact mapGet_mapSet_self m _ ⟨t, zip⟩

/-- Inserting a trial leaves keys outside its alias set unchanged. -/
theorem mapGet_insertTrial_not_mem (zip : Option Str) (m : TrialMap) (t : SCRITrial)
    (k : Str) (hk : k ∉ keysOf t) :
    mapGet (insertTrial zip m t) k = mapGet m k := by
  unfold insertTrial
  unfold keysOf at hk
  have h1 : k ≠ t.studyId := fun h => hk (by simp [h])
  by_cases hn : t.studyName = []
  · rw [if_pos hn]
    exact mapGet_mapSet_ne m _ k _ h1
  · rw [if_neg hn]
    have h2 : k ≠ jsToUpper t.studyName := by
      intro h
      exact hk (by rw [if_neg hn]; simp [h])
    rw [mapGet_mapSet_ne _ _ _ _ h2]
    exact mapGet_mapSet_ne m _ k _ h1

/-- Caching a batch none of whose trials alias `k` leaves `k` unchanged. -/
theorem mapGet_cacheTrials_not_mem (zip : Option Str) (trials : List SCRITrial)
    (m : TrialMap) (k : Str) (hk : ∀ t ∈ trials, k ∉ keysOf t) :
    mapGet (cacheTrials m trials zip) k = mapGet m k := by
  induction trials generalizing m with
  | nil => rfl
  | cons t0 rest ih =>
    have hstep : cacheTrials m (t0 :: rest) zip = cacheTrials (insertTrial zip m t0) rest zip := rfl
    rw [hstep, ih (insertTrial zip m t0) (fun t ht => hk t (List.mem_cons_of_mem t0 ht)),
      mapGet_insertTrial_not_mem zip m t0 k (hk t0 (List.mem_cons_self t0 rest))]

/-- Unfolding of the clash-free check at a cons cell. -/
theorem clashFree_cons (t : SCRITrial) (rest : List SCRITrial)
    (h : clashFree (t :: rest) = true) :
    (∀ k ∈ keysOf t, ∀ u ∈ rest, k ∉ keysOf u) ∧ clashFree rest = true := by
  unfold clashFree at h
  simp only [Bool.and_eq_true] at h
  obtain ⟨h1, h2⟩ := h
  refine ⟨?_, h2⟩
  intro k hk u hu
  have ha := List.all_eq_true.mp h1 k hk
  have hb := List.all_eq_true.mp ha u hu
  exact of_decide_eq_true hb

/-- In a clash-free batch, every trial ends up retrievable under each of its
alias keys, tagged with the supplied ZIP code. -/
theorem mapGet_cacheTrials_mem (zip : Option Str) (trials : List SCRITrial)
    (m : TrialMap) (t : SCRITrial) (k : Str)
    (hcf : clashFree trials = true) (hmem : t ∈ trials) (hk : k ∈ keysOf t) :
    mapGet (cacheTrials m trials zip) k = some ⟨t, zip⟩ := by
  induction trials generalizing m with
  | nil => cases hmem
  | cons t0 rest ih =>
    obtain ⟨hdisj, hrest⟩ := clashFree_cons t0 rest hcf
    have hstep : cacheTrials m (t0 :: rest) zip = cacheTrials (insertTrial zip m t0) rest zip := rfl
    rcases List.mem_cons.mp hmem with rfl | hmem'
    · rw [hstep, mapGet_cacheTrials_not_mem zip rest _ k (fun u hu => hdisj k hk u hu),
        mapGet_insertTrial_mem zip m t k hk]
    · rw [hstep]
      exact ih (insertTrial zip m t0) hrest hmem'


/-- The keys of a cons cell. -/
theorem mapKeys_cons (k0 : Str) (v0 : CacheEntry) (rest : TrialMap) :
    mapKeys ((k0, v0) :: rest) = k0 :: mapKeys rest := rfl

/-- A key of `mapSet m k v` is a key of `m` or the inserted key. -/
theorem mem_mapKeys_mapSet (m : TrialMap) (k : Str) (v : CacheEntry) (x : Str)
    (hx : x ∈ mapKeys (mapSet m k v)) : x ∈ mapKeys m ∨ x = k := by
  induction m with
  | nil =>
    rw [show mapSet [] k v = [(k, v)] from rfl, mapKeys_cons] at hx
    exact Or.inr (by simpa [mapKeys] using hx)
  | cons p rest ih =>
    obtain ⟨k0, v0⟩ := p
    by_cases h : k0 = k
    · subst h
      rw [show mapSet ((k0, v0) :: rest) k0 v = (k0, v) :: rest from by simp [mapSet],
        mapKeys_cons] at hx
      rcases List.mem_cons.mp hx with rfl | hx2
      · exact Or.inr rfl
      · exact Or.inl (by rw [mapKeys_cons]; exact List.mem_cons_of_mem k0 hx2)
    · rw [show mapSet ((k0, v0) :: rest) k v = (k0, v0) :: mapSet rest k v from by
        simp [mapSet, h], mapKeys_cons] at hx
      rcases List.mem_cons.mp hx with rfl | hx2
      · exact Or.inl (by rw [mapKeys_cons]; exact List.mem_cons_self x (mapKeys rest))
      · rcases ih hx2 with h2 | h2
        · exact Or.inl (by rw [mapKeys_cons]; exact List.mem_cons_of_mem k0 h2)
        · exact Or.inr h2

/-- `mapSet` preserves distinctness of the stored keys. -/
theorem nodup_mapKeys_mapSet (m : TrialMap) (k : Str) (v : CacheEntry)
    (h : (mapKeys m).Nodup) : (mapKeys (mapSet m k v)).Nodup := by
  induction m with
  | nil => simp [mapSet, mapKeys]
  | cons p rest ih =>
    obtain ⟨k0, v0⟩ := p
    rw [mapKeys, List.map_cons, List.nodup_cons] at h
    by_cases hk : k0 = k
    · subst hk
      rw [show mapSet ((k0, v0) :: rest) k0 v = (k0, v) :: rest from by simp [mapSet]]
      rw [mapKeys, List.map_cons, List.nodup_cons]
      exact ⟨h.1, h.2⟩
    · have htail := ih h.2
      have hhead : k0 ∉ mapKeys (mapSet rest k v) := by
        intro hmem
        rcases mem_mapKeys_mapSet rest k v k0 hmem with h1 | h1
        · exact h.1 h1
        · exact hk h1
      rw [show mapSet ((k0, v0) :: rest) k v = (k0, v0) :: mapSet rest k v from by
        simp [mapSet, hk]]
      rw [mapKeys, List.map_cons, List.nodup_cons]
      exact ⟨hhead, htail⟩

/-- `insertTrial` preserves distinctness of the stored keys. -/
theorem nodup_mapKeys_insertTrial (zip : Option Str) (m : TrialMap) (t : SCRITrial)
    (h : (mapKeys m).Nodup) : (mapKeys (insertTrial zip m t)).Nodup := by
  unfold insertTrial
  by_cases hn : t.studyName = []
  · rw [if_pos hn]
    exact nodup_mapKeys_mapSet _ _ _ h
  · rw [if_neg hn]
    exact nodup_mapKeys_mapSet _ _ _ (nodup_mapKeys_mapSet _ _ _ h)

/-- `cacheTrials` preserves distinctness of the stored keys. -/
theorem nodup_mapKeys_cacheTrials (zip : Option Str) (trials : List SCRITrial)
    (m : TrialMap) (h : (mapKeys m).Nodup) : (mapKeys (cacheTrials m trials zip)).Nodup := by
  induction trials generalizing m with
  | nil => exact h
  | cons t0 rest ih => exact ih (insertTrial zip m t0) (nodup_mapKeys_insertTrial zip m t0 h)

/-- With distinct keys, `mapGet` recovers each stored pair. -/
theorem mapGet_of_mem_nodup (m : TrialMap) (p : Str × CacheEntry)
    (hnd : (mapKeys m).Nodup) (hp : p ∈ m) : mapGet m p.1 = some p.2 := by
  induction m with
  | nil => cases hp
  | cons q rest ih =>
    obtain ⟨k0, v0⟩ := q
    rw [mapKeys, List.map_cons, List.nodup_cons] at hnd
    rcases List.mem_cons.mp hp with rfl | hp'
    · exact mapGet_cons_self k0 v0 rest
    · have hne : k0 ≠ p.1 := by
        intro h
        apply hnd.1
        rw [h]
        exact List.mem_map.mpr ⟨p, hp', rfl⟩
      rw [mapGet_cons_ne k0 p.1 v0 rest hne]
      exact ih hnd.2 hp'

/-! ## Chat-loop lemmas -/

/-- The pair built for a call always carries that call's id. -/
theorem processCall_call_id (parse : String → Except String String)
    (exec : String → String → Except String String) (c : FunctionCall) :
    (processCall parse exec c).call_id = c.call_id := by
  unfold processCall
  rcases hp : parse c.arguments with e | a
  · simp [hp]
  · rcases he : exec c.name a with e2 | out <;> simp [hp, he]

/-- A throwing argument parse becomes an error-payload pair. -/
theorem processCall_parse_error (parse : String → Except String String)
    (exec : String → String → Except String String) (c : FunctionCall) (e : String)
    (h : parse c.arguments = Except.error e) :
    processCall parse exec c = ⟨c.call_id, ToolOutput.errorPayload e⟩ := by
  unfold processCall
  rw [h]

/-- A throwing tool execution becomes an error-payload pair. -/
theorem processCall_exec_error (parse : String → Except String String)
    (exec : String → String → Except String String) (c : FunctionCall) (a e : String)
    (hp : parse c.arguments = Except.ok a) (he : exec c.name a = Except.error e) :
    processCall parse exec c = ⟨c.call_id, ToolOutput.errorPayload e⟩ := by
  simp [processCall, hp, he]

/-- The extracted text of a turn is never the empty string. -/
theorem extractText_ne_empty (r : Response) : extractText r ≠ "" := by
  unfold extractText
  by_cases h : joinedTexts r = ""
  · rw [if_pos h]
    decide
  · rw [if_neg h]
    exact h

/-- Along the loop started at the `k`-th model response, the final response is
a later response of the same endpoint, and every mid-turn id belongs to an
earlier response than the final one. -/
theorem runToolLoop_final_spec (endpoint : Nat → Response)
    (parse : String → Except String String) (exec : String → String → Except String String) :
    ∀ (fuel k : Nat), ∃ m : Nat, k ≤ m ∧
      (runToolLoop endpoint parse exec fuel (endpoint k) (k + 1)).finalResponse = endpoint m ∧
      ∀ x ∈ (runToolLoop endpoint parse exec fuel (endpoint k) (k + 1)).midTurnIds,
        ∃ j : Nat, j < m ∧ x = (endpoint j).id := by
  intro fuel
  induction fuel with
  | zero =>
    intro k
    exact ⟨k, Nat.le_refl k, rfl, by intro x hx; simp [runToolLoop] at hx⟩
  | succ n ih =>
    intro k
    by_cases hc : (endpoint k).status = statusCompleted ∧ (endpoint k).output.isSome = true
    · rcases hfc : getFunctionCalls (endpoint k) with _ | ⟨c, cs⟩
      · refine ⟨k, Nat.le_refl k, ?_, ?_⟩
        · simp [runToolLoop, hc.1, hc.2, hfc]
        · intro x hx
          simp [runToolLoop, hc.1, hc.2, hfc] at hx
      · obtain ⟨m, hkm, hfin, hmids⟩ := ih (k + 1)
        refine ⟨m, by omega, ?_, ?_⟩
        · simpa [runToolLoop, hc.1, hc.2, hfc] using hfin
        · intro x hx
          simp [runToolLoop, hc.1, hc.2, hfc] at hx
          rcases hx with rfl | hx
          · exact ⟨k, by omega, rfl⟩
          · exact hmids x hx
    · refine ⟨k, Nat.le_refl k, ?_, ?_⟩
      · simp [runToolLoop, hc]
      · intro x hx
        simp [runToolLoop, hc] at hx

/-- Every batch recorded by the loop is exactly the per-call map of
`processCall` over that iteration's function calls. -/
theorem runToolLoop_batches_spec (endpoint : Nat → Response)
    (parse : String → Except String String) (exec : String → String → Except String String) :
    ∀ (fuel : Nat) (r : Response) (k : Nat) (fb : List FunctionCall × List ToolOutputPair),
      fb ∈ (runToolLoop endpoint parse exec fuel r k).batches →
      fb.2 = fb.1.map (processCall parse exec) := by
  intro fuel
  induction fuel with
  | zero =>
    intro r k fb h
    simp [runToolLoop] at h
  | succ n ih =>
    intro r k fb h
    by_cases hc : r.status = statusCompleted ∧ r.output.isSome = true
    · rcases hfc : getFunctionCalls r with _ | ⟨c, cs⟩
      · simp [runToolLoop, hc.1, hc.2, hfc] at h
      · simp only [runToolLoop, hc.1, hc.2, hfc, and_self, if_true] at h
        rcases List.mem_cons.mp h with h1 | h1
        · rw [h1]
        · exact ih (endpoint k) (k + 1) fb h1
    · simp [runToolLoop, hc] at h

/-- The loop records at most `fuel` iterations. -/
theorem runToolLoop_length_le (endpoint : Nat → Response)
    (parse : String → Except String String) (exec : String → String → Except String String) :
    ∀ (fuel : Nat) (r : Response) (k : Nat),
      (runToolLoop endpoint parse exec fuel r k).batches.length ≤ fuel := by
  intro fuel
  induction fuel with
  | zero =>
    intro r k
    simp [runToolLoop]
  | succ n ih =>
    intro r k
    by_cases hc : r.status = statusCompleted ∧ r.output.isSome = true
    · rcases hfc : getFunctionCalls r with _ | ⟨c, cs⟩
      · simp [runToolLoop, hc.1, hc.2, hfc]
      · simp only [runToolLoop, hc.1, hc.2, hfc, and_self, if_true, List.length_cons]
        exact Nat.succ_le_succ (ih (endpoint k) (k + 1))
    · simp [runToolLoop, hc]

/-- The returned text is the joined segments or the fixed fallback. -/
theorem extractText_cases (r : Response) :
    extractText r = joinedTexts r ∨ extractText r = fallbackApology := by
  unfold extractText
  by_cases h : joinedTexts r = ""
  · rw [if_pos h]
    exact Or.inr rfl
  · rw [if_neg h]
    exact Or.inl rfl

/-- Claim C1: after a completed `chat` turn, assuming the model endpoint
returns a fresh id on every call, the stored continuation token
(`previousResponseId`) is the id of the final model response of the turn: it
differs from its value before the call and never equals an intermediate
tool-turn response id observed mid-loop (a response whose tool-call outputs
were subsequently fed back). -/
theorem chat_token_updated_to_final (endpoint : Nat → Response)
    (parse : String → Except String String) (exec : String → String → Except String String)
    (prevId : Option String)
    (hinj : ∀ i j : Nat, i ≠ j → (endpoint i).id ≠ (endpoint j).id)
    (hfresh : ∀ i : Nat, some (endpoint i).id ≠ prevId) :
    (chat endpoint parse exec prevId).newPreviousResponseId ≠ prevId ∧
      ∀ x ∈ (chat endpoint parse exec prevId).trace.midTurnIds,
        (chat endpoint parse exec prevId).newPreviousResponseId ≠ some x := by
  obtain ⟨m, hm, hfin, hmids⟩ := runToolLoop_final_spec endpoint parse exec maxLoops 0
  simp only [Nat.zero_add] at hfin hmids
  have hchat : (chat endpoint parse exec prevId).trace =
      runToolLoop endpoint parse exec maxLoops (endpoint 0) 1 := rfl
  have hid : (chat endpoint parse exec prevId).newPreviousResponseId =
      some (endpoint m).id := by
    show some (runToolLoop endpoint parse exec maxLoops (endpoint 0) 1).finalResponse.id = _
    rw [hfin]
  constructor
  · rw [hid]
    exact hfresh m
  · intro x hx
    rw [hchat] at hx
    obtain ⟨j, hj, rfl⟩ := hmids x hx
    rw [hid]
    intro hcontra
    exact hinj m j (by omega) (Option.some.inj hcontra)

/-- Witness for C1 at a concrete endpoint with distinct ids and no prior token. -/
theorem chat_token_updated_to_final_witness :
    (chat wEndpointA wParseOk wExecOk none).newPreviousResponseId ≠ none :=
  (chat_token_updated_to_final wEndpointA wParseOk wExecOk none
    (by
      intro i j hij heq
      apply hij
      have hlen := congrArg (fun s : String => s.data.length) heq
      simpa [wEndpointA, wIdOf] using hlen)
    (fun i => by simp)).1

/-- Claim C2: inside a `chat` turn, every function call of a batch yields
exactly one `{call_id, output}` pair submitted back (the batch is the per-call
map, lengths agree, ids are preserved); a throwing argument parse or tool
execution yields the error payload instead; and the turn completes with
non-empty text rather than propagating the exception. -/
theorem chat_tool_error_becomes_payload (endpoint : Nat → Response)
    (parse : String → Except String String) (exec : String → String → Except String String)
    (prevId : Option String) (fcs : List FunctionCall) (batch : List ToolOutputPair)
    (c : FunctionCall)
    (hmem : (fcs, batch) ∈ (chat endpoint parse exec prevId).trace.batches)
    (hc : c ∈ fcs) :
    batch = fcs.map (processCall parse exec) ∧
    batch.length = fcs.length ∧
    processCall parse exec c ∈ batch ∧
    (processCall parse exec c).call_id = c.call_id ∧
    (∀ e, parse c.arguments = Except.error e →
      processCall parse exec c = ⟨c.call_id, ToolOutput.errorPayload e⟩) ∧
    (∀ a e, parse c.arguments = Except.ok a → exec c.name a = Except.error e →
      processCall parse exec c = ⟨c.call_id, ToolOutput.errorPayload e⟩) ∧
    (chat endpoint parse exec prevId).text ≠ "" := by
  have hb := runToolLoop_batches_spec endpoint parse exec maxLoops (endpoint 0) 1
    (fcs, batch) hmem
  refine ⟨hb, ?_, ?_, processCall_call_id parse exec c,
    processCall_parse_error parse exec c, processCall_exec_error parse exec c,
    extractText_ne_empty _⟩
  · rw [show batch = fcs.map (processCall parse exec) from hb, List.length_map]
  · rw [show batch = fcs.map (processCall parse exec) from hb]
    exact List.mem_map_of_mem (processCall parse exec) hc

/-- Witness for C2: a parse failure on a concrete call still yields the pair
and the turn ends with non-empty text. -/
theorem chat_tool_error_becomes_payload_witness :
    wBatchB = wFcsB.map (processCall wParseErr wExecOk) ∧
    processCall wParseErr wExecOk wCall0 = ⟨callIdStr, ToolOutput.errorPayload badArgsStr⟩ ∧
    (chat wEndpointB wParseErr wExecOk none).text ≠ "" := by
  have h := chat_tool_error_becomes_payload wEndpointB wParseErr wExecOk none wFcsB wBatchB
    wCall0 (by decide) (by decide)
  exact ⟨h.1, h.2.2.2.2.1 badArgsStr rfl, h.2.2.2.2.2.2⟩

/-- Claim C5: for every behaviour of the model endpoint, the tool loop of a
`chat` turn runs at most `maxLoops` (10) iterations, and the turn returns
normally with the available text or the fixed fallback apology (never empty,
never an exception). -/
theorem chat_loop_bounded (endpoint : Nat → Response)
    (parse : String → Except String String) (exec : String → String → Except String String)
    (prevId : Option String) :
    (chat endpoint parse exec prevId).trace.batches.length ≤ maxLoops ∧
    ((chat endpoint parse exec prevId).text =
        joinedTexts (chat endpoint parse exec prevId).trace.finalResponse ∨
      (chat endpoint parse exec prevId).text = fallbackApology) ∧
    (chat endpoint parse exec prevId).text ≠ "" :=
  ⟨runToolLoop_length_le endpoint parse exec maxLoops (endpoint 0) 1,
    extractText_cases _, extractText_ne_empty _⟩

/-- Claim C3 (code bug): with a resolvable origin ZIP and two trials at 0 and
5 miles, the slim projection of `search_trials` comes back ordered
`[5 miles, 0 miles]` - the comparator `(a.distance || 999) - (b.distance || 999)`
treats the falsy distance `0` as `999`, so the output is not non-decreasing in
distance over the distance-bearing entries. -/
theorem search_sort_zero_distance_misordered :
    ((executeSearchTrials exDist exGetZip ⟨[], none⟩ [exTrial0, exTrial5] 2 exCancer
        (some exZip37203)).2.trials.map TrialSearchResult.distance) = [some 5, some 0] ∧
    exGetZip exZip37203 ≠ none := by
  constructor
  · decide
  · decide

/-- Claim C4 (counterexample): cache `exT1` (id AAA, name BCD) then `exT2`
(id BCD): the name alias of `exT1` now resolves `exT2`, not the same record as
`get(AAA)`; and the lookup of BC, a substring of `exT1`'s name, also resolves
`exT2` rather than `exT1`. -/
theorem cache_alias_counterexample :
    ((getCachedTrial exCache exT1.studyId).map CacheEntry.trial = some exT1) ∧
    ((getCachedTrial exCache (jsToUpper exT1.studyName)).map CacheEntry.trial = some exT2) ∧
    (jsIncludes exT1.studyName sBC = true) ∧
    ((getCachedTrial exCache sBC).map CacheEntry.trial = some exT2) ∧
    exT2 ≠ exT1 := by
  refine ⟨by decide, by decide, by decide, by decide, by decide⟩

/-- Claim C4 (amended): in a clash-free search batch, each record is resolved
by `get` of its id and by `get` of its uppercased name, both returning the same
cached record; and a query `q` on which the exact and uppercased stages miss
resolves the record whenever the first containment hit of the linear scan is
one of that record's alias keys.  The lookup stages are exact match, then
uppercased match, then first containment hit. -/
theorem cache_alias_amended (trials : List SCRITrial) (zip : Option Str)
    (t : SCRITrial) (q : Str) (p : Str × CacheEntry)
    (hcf : clashFree trials = true) (hmem : t ∈ trials)
    (h1 : mapGet (cacheTrials [] trials zip) q = none)
    (h2 : mapGet (cacheTrials [] trials zip) (jsToUpper q) = none)
    (h3 : (cacheTrials [] trials zip).find? (fun e =>
        jsIncludes e.1 (jsToUpper q) || jsIncludes (jsToUpper q) e.1) = some p)
    (h4 : p.1 ∈ keysOf t) :
    getCachedTrial (cacheTrials [] trials zip) t.studyId = some ⟨t, zip⟩ ∧
    (t.studyName ≠ [] →
      getCachedTrial (cacheTrials [] trials zip) (jsToUpper t.studyName) = some ⟨t, zip⟩) ∧
    getCachedTrial (cacheTrials [] trials zip) q = some ⟨t, zip⟩ := by
  have hid : mapGet (cacheTrials [] trials zip) t.studyId = some ⟨t, zip⟩ :=
    mapGet_cacheTrials_mem zip trials [] t t.studyId hcf hmem
      (List.mem_cons_self t.studyId _)
  refine ⟨?_, ?_, ?_⟩
  · unfold getCachedTrial
    rw [hid]
  · intro hn
    have hkey : jsToUpper t.studyName ∈ keysOf t := by
      unfold keysOf
      rw [if_neg hn]
      exact List.mem_cons_of_mem _ (List.mem_singleton.mpr rfl)
    have hup : mapGet (cacheTrials [] trials zip) (jsToUpper t.studyName) = some ⟨t, zip⟩ :=
      mapGet_cacheTrials_mem zip trials [] t (jsToUpper t.studyName) hcf hmem hkey
    unfold getCachedTrial
    rw [hup]
  · have hnd : (mapKeys (cacheTrials [] trials zip)).Nodup :=
      nodup_mapKeys_cacheTrials zip trials [] (by simp [mapKeys])
    have hpmem : p ∈ cacheTrials [] trials zip := List.mem_of_find?_eq_some h3
    have hpget : mapGet (cacheTrials [] trials zip) p.1 = some p.2 :=
      mapGet_of_mem_nodup _ p hnd hpmem
    have hpkey : mapGet (cacheTrials [] trials zip) p.1 = some ⟨t, zip⟩ :=
      mapGet_cacheTrials_mem zip trials [] t p.1 hcf hmem h4
    have hpv : p.2 = ⟨t, zip⟩ := by
      have := hpget.symm.trans hpkey
      exact Option.some.inj this
    unfold getCachedTrial
    rw [h1, h2, h3]
    simp [hpv]

/-- Witness for the amended C4 on a concrete clash-free batch: id, uppercased
name, and the substring BC of the name ABC all resolve the same record. -/
theorem cache_alias_amended_witness :
    getCachedTrial wCache4 wT1.studyId = some ⟨wT1, none⟩ ∧
    getCachedTrial wCache4 (jsToUpper wT1.studyName) = some ⟨wT1, none⟩ ∧
    getCachedTrial wCache4 sBC = some ⟨wT1, none⟩ := by
  have h := cache_alias_amended wTrials none wT1 sBC wPair4 (by decide) (by decide)
    (by decide) (by decide) (by decide) (by decide)
  exact ⟨h.1, h.2.1 (by decide), h.2.2⟩

/-- Claim C6 (counterexample): a search with no ZIP argument while the patient
profile carries ZIP 37203 caches the record with no postal code - the
profile-default is not used. -/
theorem search_cache_ignores_profile_zip :
    mapGet (executeSearchTrials exDist exGetZip exStateP [exT1] 1 exCancer none).1.trialCache
        exT1.studyId = some ⟨exT1, none⟩ ∧
    exStateP.patientProfile = some exProfile ∧
    exProfile.zipCode = some exZip37203 ∧
    (some (⟨exT1, none⟩ : CacheEntry) ≠ some (⟨exT1, some exZip37203⟩ : CacheEntry)) := by
  refine ⟨by decide, by decide, by decide, by decide⟩

/-- Claim C6 (amended): every record of a clash-free upstream batch is cached,
aliased by its id and (when the name is non-empty) by its uppercased name,
together with exactly the postal code supplied in the tool arguments (possibly
absent); the patient profile's postal code is not consulted. -/
theorem search_caches_all_records (dist : Coords → Coords → ℚ)
    (getZip : Str → Option Coords) (st : AgentToolState) (searchData : List SCRITrial)
    (total : Nat) (cancerType : Str) (zipArg : Option Str) (t : SCRITrial)
    (hcf : clashFree searchData = true) (hmem : t ∈ searchData) :
    mapGet (executeSearchTrials dist getZip st searchData total
        cancerType zipArg).1.trialCache t.studyId = some ⟨t, zipArg⟩ ∧
    (t.studyName ≠ [] →
      mapGet (executeSearchTrials dist getZip st searchData total
          cancerType zipArg).1.trialCache (jsToUpper t.studyName) = some ⟨t, zipArg⟩) := by
  constructor
  · exact mapGet_cacheTrials_mem zipArg searchData st.trialCache t t.studyId hcf hmem
      (List.mem_cons_self t.studyId _)
  · intro hn
    have hkey : jsToUpper t.studyName ∈ keysOf t := by
      unfold keysOf
      rw [if_neg hn]
      exact List.mem_cons_of_mem _ (List.mem_singleton.mpr rfl)
    exact mapGet_cacheTrials_mem zipArg searchData st.trialCache t (jsToUpper t.studyName)
      hcf hmem hkey

/-- Witness for the amended C6 on a concrete batch and a supplied ZIP code. -/
theorem search_caches_all_records_witness :
    mapGet (executeSearchTrials exDist exGetZip ⟨[], some exProfile⟩ wTrials 2 exCancer
        (some exZip37203)).1.trialCache wT1.studyId = some ⟨wT1, some exZip37203⟩ ∧
    mapGet (executeSearchTrials exDist exGetZip ⟨[], some exProfile⟩ wTrials 2 exCancer
        (some exZip37203)).1.trialCache (jsToUpper wT1.studyName) =
      some ⟨wT1, some exZip37203⟩ := by
  have h := search_caches_all_records exDist exGetZip ⟨[], some exProfile⟩ wTrials 2 exCancer
    (some exZip37203) wT1 (by decide) (by decide)
  exact ⟨h.1, h.2 (by decide)⟩

/-- Claim C7: an id whose uppercased, trimmed form does not start with NCT is
rejected with `null` before any network request; and when the registry reports
the record not found, the eligibility tool returns the `{error: ...}` payload
instead of throwing. -/
theorem eligibility_error_paths (registry : Str → FetchOutcome (Option CTGovStudy))
    (mal wf : Str)
    (hmal : jsStartsWith nctPrefix (jsTrim (jsToUpper mal)) = false)
    (hwf : jsStartsWith nctPrefix (jsTrim (jsToUpper wf)) = true)
    (hnf : registry (jsTrim (jsToUpper wf)) = FetchOutcome.httpError 404) :
    fetchCTGovStudy registry mal = (none, 0) ∧
    executeGetTrialEligibility registry wf = EligibilityOutcome.errorPayload wf := by
  constructor
  · unfold fetchCTGovStudy
    simp [hmal]
  · simp [executeGetTrialEligibility, fetchCTGovStudy, hwf, hnf]

/-- Witness for C7: a lowercase junk id short-circuits with zero requests, and
NCT00000000 against a 404-registry yields the error payload. -/
theorem eligibility_error_paths_witness :
    fetchCTGovStudy wRegistry404 sLowerId = (none, 0) ∧
    executeGetTrialEligibility wRegistry404 sNCT0 = EligibilityOutcome.errorPayload sNCT0 :=
  eligibility_error_paths wRegistry404 sLowerId sNCT0 (by decide) (by decide) (by decide)

/-- Claim C8: the backstop search issues at most two upstream requests; a 400
with a non-empty geo filter triggers exactly one retry without the filter
(whose own failure yields the empty list); any other failure returns the empty
list after one request, never throwing. -/
theorem backstop_retry_once (fetch : Option Str → FetchOutcome (List CTGovSearchResult))
    (location : Option Str) :
    (searchCTGov fetch location).2 ≤ 2 ∧
    (∀ t : Str, trimmedLocationOf location = some t →
      fetch (some t) = FetchOutcome.httpError 400 →
      ((searchCTGov fetch location).2 = 2 ∧
        (∀ s : Nat, fetch none = FetchOutcome.httpError s →
          searchCTGov fetch location = ([], 2)) ∧
        (fetch none = FetchOutcome.thrown → searchCTGov fetch location = ([], 2)) ∧
        (∀ rs, fetch none = FetchOutcome.ok rs → searchCTGov fetch location = (rs, 2)))) ∧
    (∀ s : Nat, fetch (trimmedLocationOf location) = FetchOutcome.httpError s →
      (s ≠ 400 ∨ trimmedLocationOf location = none) → searchCTGov fetch location = ([], 1)) ∧
    (fetch (trimmedLocationOf location) = FetchOutcome.thrown →
      searchCTGov fetch location = ([], 1)) := by
  refine ⟨?_, ?_, ?_, ?_⟩
  · rcases hf : fetch (trimmedLocationOf location) with rs | s0 | _
    · simp [searchCTGov, hf]
    · by_cases hc : s0 = 400 ∧ (trimmedLocationOf location).isSome = true
      · rcases hf2 : fetch none with rs2 | s2 | _ <;> simp [searchCTGov, hf, hf2, hc]
      · simp [searchCTGov, hf, hc]
    · simp [searchCTGov, hf]
  · intro t ht h400
    have hiss : (trimmedLocationOf location).isSome = true := by rw [ht]; rfl
    have hf : fetch (trimmedLocationOf location) = FetchOutcome.httpError 400 := by
      rw [ht]; exact h400
    refine ⟨?_, ?_, ?_, ?_⟩
    · rcases hf2 : fetch none with rs2 | s2 | _ <;> simp [searchCTGov, hf, hiss, hf2]
    · intro s hs
      simp [searchCTGov, hf, hiss, hs]
    · intro hthr
      simp [searchCTGov, hf, hiss, hthr]
    · intro rs hok
      simp [searchCTGov, hf, hiss, hok]
  · intro s hs hcase
    rcases hcase with hne | hnone
    · simp [searchCTGov, hs, hne]
    · rw [hnone] at hs
      simp [searchCTGov, hnone, hs]
  · intro hthr
    simp [searchCTGov, hthr]

/-- Witness for C8: a fetch oracle rejecting every geo filter with a 400 and
succeeding without one makes the search issue exactly two requests. -/
theorem backstop_retry_once_witness :
    (searchCTGov wFetchGeo400 (some wLocNash)).2 ≤ 2 ∧
    (searchCTGov wFetchGeo400 (some wLocNash)).2 = 2 ∧
    searchCTGov wFetchGeo400 (some wLocNash) = ([], 2) := by
  have h := backstop_retry_once wFetchGeo400 (some wLocNash)
  have h2 := h.2.1 wLocNash (by decide) (by decide)
  exact ⟨h.1, h2.1, h2.2.2.2 [] (by decide)⟩

/-- The empty query is contained in every stored key. -/
theorem jsIncludes_nil_query (s : Str) : jsIncludes s [] = true := by
  cases s <;> simp [jsIncludes, isPrefixB]

/-- Claim C9: whenever the trial cache is non-empty (and no stored key is the
empty string), a lookup with the empty string resolves the first cached entry -
the containment fallback `key.includes(query)` always holds for the empty
query - so `get_study_details` with an empty study id reports a cache hit
rather than not-found. -/
theorem empty_query_hits_first_entry (dist : Coords → Coords → ℚ)
    (getZip : Str → Option Coords) (m : TrialMap) (api : Str → Option SCRITrial)
    (hne : m ≠ []) (hkeys : ∀ p ∈ m, p.1 ≠ ([] : Str)) :
    getCachedTrial m [] = some (m.head hne).2 ∧
    executeGetStudyDetails dist getZip m api [] =
      DetailResult.found DetailSource.cache
        (toTrialSummary dist getZip (m.head hne).2.trial (m.head hne).2.userZipCode) := by
  have hget : mapGet m [] = none := by
    unfold mapGet
    rw [List.find?_eq_none.mpr ?_]
    · rfl
    · intro p hp
      simp [hkeys p hp]
  have hfirst : getCachedTrial m [] = some (m.head hne).2 := by
    unfold getCachedTrial
    rw [show jsToUpper ([] : Str) = [] from rfl, hget]
    obtain ⟨p, rest, rfl⟩ : ∃ p rest, m = p :: rest := by
      cases m with
      | nil => exact absurd rfl hne
      | cons a l => exact ⟨a, l, rfl⟩
    rw [List.find?_cons_of_pos rest (by simp [jsIncludes_nil_query])]
    rfl
  refine ⟨hfirst, ?_⟩
  unfold executeGetStudyDetails
  rw [hfirst]

/-- Witness for C9 on the concrete two-record cache. -/
theorem empty_query_hits_first_entry_witness :
    getCachedTrial exCache [] = some (exCache.head (by decide)).2 ∧
    executeGetStudyDetails wDist wGetZip exCache wApiNone [] =
      DetailResult.found DetailSource.cache
        (toTrialSummary wDist wGetZip (exCache.head (by decide)).2.trial
          (exCache.head (by decide)).2.userZipCode) :=
  empty_query_hits_first_entry wDist wGetZip exCache wApiNone (by decide) (by decide)

/-- Emptiness of the selected location list. -/
theorem selectedLocations_eq_nil_iff (t : SCRITrial) :
    selectedLocations t = [] ↔ (t.officeList = [] ∧ t.siteList = []) := by
  unfold selectedLocations
  by_cases h : t.officeList = []
  · simp [h]
  · simp [h]

/-- Claim C10: `toTrialSummary` is total; with no offices and no sites it
returns location count 0, an empty location list and no closest location, and
in general the closest location is present exactly when the trial has at least
one location. -/
theorem toTrialSummary_total_safe (dist : Coords → Coords → ℚ)
    (getZip : Str → Option Coords) (t : SCRITrial) (zip : Option Str) :
    ((t.officeList = [] ∧ t.siteList = []) →
      (toTrialSummary dist getZip t zip).locationCount = 0 ∧
      (toTrialSummary dist getZip t zip).allLocations = [] ∧
      (toTrialSummary dist getZip t zip).closestLocation = none) ∧
    ((toTrialSummary dist getZip t zip).closestLocation.isSome = true ↔
      (t.officeList ≠ [] ∨ t.siteList ≠ [])) := by
  have dirB : selectedLocations t = [] →
      summaryLocs dist getZip t zip = [] ∧ summarySorted dist getZip t zip = [] := by
    intro h
    have hlocs : summaryLocs dist getZip t zip = [] := by
      unfold summaryLocs
      rw [h]
      rfl
    exact ⟨hlocs, by unfold summarySorted; rw [hlocs]; rfl⟩
  have hclosed : ∀ hs : selectedLocations t = [],
      (toTrialSummary dist getZip t zip).closestLocation = none := by
    intro hs
    obtain ⟨hlocs, hsorted⟩ := dirB hs
    show (match summarySorted dist getZip t zip with
      | x :: _ => some x
      | [] => (summaryLocs dist getZip t zip).head?) = none
    rw [hsorted, hlocs]
    rfl
  have dirA : selectedLocations t ≠ [] →
      (toTrialSummary dist getZip t zip).closestLocation.isSome = true := by
    intro hsel
    have hlocs : summaryLocs dist getZip t zip ≠ [] := by
      unfold summaryLocs
      simpa [List.map_eq_nil_iff] using hsel
    show (match summarySorted dist getZip t zip with
      | x :: _ => some x
      | [] => (summaryLocs dist getZip t zip).head?).isSome = true
    rcases hs : summarySorted dist getZip t zip with _ | ⟨x, xs⟩
    · rcases hl : summaryLocs dist getZip t zip with _ | ⟨y, ys⟩
      · exact absurd hl hlocs
      · rfl
    · rfl
  constructor
  · rintro ⟨h1, h2⟩
    have hsel : selectedLocations t = [] := (selectedLocations_eq_nil_iff t).mpr ⟨h1, h2⟩
    obtain ⟨hlocs, hsorted⟩ := dirB hsel
    refine ⟨?_, ?_, hclosed hsel⟩
    · show (selectedLocations t).length = 0
      rw [hsel]
      rfl
    · show (if summarySorted dist getZip t zip ≠ [] then summarySorted dist getZip t zip
        else summaryLocs dist getZip t zip) = []
      rw [hsorted, hlocs]
      simp
  · constructor
    · intro hsome
      by_contra hcon
      have hsel : selectedLocations t = [] := by
        rw [selectedLocations_eq_nil_iff]
        constructor
        · by_contra h1
          exact hcon (Or.inl h1)
        · by_contra h2
          exact hcon (Or.inr h2)
      rw [hclosed hsel] at hsome
      cases hsome
    · intro hne
      apply dirA
      rw [Ne, selectedLocations_eq_nil_iff]
      rintro ⟨h1, h2⟩
      rcases hne with h | h
      · exact h h1
      · exact h h2

/-- Witness for C10 at a trial with no offices and no sites. -/
theorem toTrialSummary_total_safe_witness :
    (toTrialSummary wDist wGetZip wEmptyTrial none).locationCount = 0 ∧
    (toTrialSummary wDist wGetZip wEmptyTrial none).allLocations = [] ∧
    (toTrialSummary wDist wGetZip wEmptyTrial none).closestLocation = none ∧
    ((toTrialSummary wDist wGetZip wEmptyTrial none).closestLocation.isSome = true ↔
      (wEmptyTrial.officeList ≠ [] ∨ wEmptyTrial.siteList ≠ [])) := by
  have h := toTrialSummary_total_safe wDist wGetZip wEmptyTrial none
  have h1 := h.1 ⟨rfl, rfl⟩
  exact ⟨h1.1, h1.2.1, h1.2.2, h.2⟩

/-- Witness for C5 at a concrete endpoint. -/
theorem chat_loop_bounded_witness :
    (chat wEndpointA wParseOk wExecOk none).trace.batches.length ≤ maxLoops ∧
    ((chat wEndpointA wParseOk wExecOk none).text =
        joinedTexts (chat wEndpointA wParseOk wExecOk none).trace.finalResponse ∨
      (chat wEndpointA wParseOk wExecOk none).text = fallbackApology) ∧
    (chat wEndpointA wParseOk wExecOk none).text ≠ "" :=
  chat_loop_bounded wEndpointA wParseOk wExecOk none
